import Mathlib

/-
  Verification development for the VideoStreamer pipeline of psi_esp32
  (src/main/video_streamer.cpp, src/main/video_streamer.hpp).

  The definitions below are a shallow embedding of the track-registry
  lifecycle (addTrack / removeTrack / startStreaming / stopStreaming),
  the send loop (sendLoop), and the capture-encode loop (captureLoop,
  shouldSkipFrame), translated directly from the C++ source.  Hardware
  interactions (V4L2 ioctl results, FreeRTOS queue operations, the
  timer) are represented by explicit oracle parameters; machine
  integers are modelled as Nat.
-/

namespace VideoStreamer

/-- Queue capacity, from video_streamer.hpp line 87:
    static constexpr int SEND_QUEUE_DEPTH = 8. -/
def SEND_QUEUE_DEPTH : Nat := 8

/-- Encoder pipeline capacity, from video_streamer.hpp line 82:
    static constexpr int ENCODER_OUTPUT_BUFFERS = 3. -/
def ENCODER_OUTPUT_BUFFERS : Nat := 3

/-- Behaviour of one rtc::Track as observed by the send loop: whether
    isOpen() returns true and whether sendFrame throws an exception.
    The boolean return value of sendFrame is ignored by the code. -/
structure Sink where
  isOpen : Bool
  throwsOnSend : Bool
deriving DecidableEq

/-- Observable state of one VideoStreamer object.  tracks embeds the
    std::map tracks_ as an association list with unique keys; running
    embeds the atomic flag running_; queueLen is the number of frames
    in send_queue_; sendLoopExited records whether the send task has
    returned from sendLoop (the task is spawned with this false);
    deliveries is a ghost log of (client_id, frame) pairs recording
    every sendFrame call that completed. -/
structure VS where
  tracks : List (String × Sink)
  running : Bool
  queueLen : Nat
  sendLoopExited : Bool
  deliveries : List (String × Nat)
deriving DecidableEq

/-- std::map insertion semantics of tracks_[client_id] = track
    (video_streamer.cpp line 303): any previous entry for the key is
    replaced. -/
def mapInsert (id : String) (t : Sink) (m : List (String × Sink)) :
    List (String × Sink) :=
  (id, t) :: m.filter (fun p => p.1 ≠ id)

/-- std::map erase semantics of tracks_.erase (cpp lines 311, 329). -/
def mapErase (id : String) (m : List (String × Sink)) :
    List (String × Sink) :=
  m.filter (fun p => p.1 ≠ id)

/-- Possible outcomes of one startStreaming() attempt, as an
    environment oracle.  success: devices, queue and both tasks come
    up (cpp lines 350-440).  earlyFail: a failure before running_ is
    set, i.e. in initCamera/initEncoder/xQueueCreate/VIDIOC_STREAMON
    (cpp lines 358-397) - startStreaming returns false having changed
    none of the modelled state.  lateFail: an xTaskCreate failure
    after running_ := true (cpp lines 416-436) - startStreaming calls
    stopStreaming() and returns false. -/
inductive StartOutcome
  | success
  | earlyFail
  | lateFail
deriving DecidableEq

/-- stopStreaming (cpp lines 442-501): if running_ is false it
    returns immediately; otherwise it sets running_ := false, sleeps a
    fixed 100 ms per task handle (vTaskDelay - it does not join the
    tasks, and sendLoop has no exit path, so sendLoopExited is left
    unchanged), stops the device streams, drains and deletes
    send_queue_ (every remaining QueuedFrame is received and deleted,
    so the queue length becomes 0), releases the devices via cleanup,
    and clears tracks_. -/
def stopStreaming (s : VS) : VS :=
  if s.running then
    { s with running := false, queueLen := 0, tracks := [] }
  else s

/-- startStreaming (cpp lines 350-440), with the outcome supplied by
    the oracle.  On success it sets running_ := true, creates the
    (empty) send queue, and spawns the send and capture tasks. -/
def startStreaming (oc : StartOutcome) (s : VS) : VS × Bool :=
  if s.running then (s, true)
  else
    match oc with
    | .success =>
        ({ s with running := true, queueLen := 0, sendLoopExited := false }, true)
    | .earlyFail => (s, false)
    | .lateFail =>
        (stopStreaming { s with running := true, queueLen := 0 }, false)

/-- addTrack (cpp lines 292-319).  A null track pointer is rejected
    up front.  Otherwise the track is inserted into tracks_ under the
    lock; if running_ is false, startStreaming is attempted, and on
    its failure the entry is erased again and false is returned. -/
def addTrack (id : String) (track : Option Sink) (oc : StartOutcome)
    (s : VS) : VS × Bool :=
  match track with
  | none => (s, false)
  | some t =>
    if s.running then ({ s with tracks := mapInsert id t s.tracks }, true)
    else
      if (startStreaming oc { s with tracks := mapInsert id t s.tracks }).2 then
        ((startStreaming oc { s with tracks := mapInsert id t s.tracks }).1, true)
      else
        ({ (startStreaming oc { s with tracks := mapInsert id t s.tracks }).1 with
            tracks := mapErase id
              (startStreaming oc { s with tracks := mapInsert id t s.tracks }).1.tracks },
          false)

/-- removeTrack (cpp lines 321-344): under the lock, erase the entry
    if present; if the map became empty, call stopStreaming. -/
def removeTrack (id : String) (s : VS) : VS :=
  if s.tracks.any (fun p => p.1 = id) then
    if (mapErase id s.tracks).isEmpty then
      stopStreaming { s with tracks := mapErase id s.tracks }
    else { s with tracks := mapErase id s.tracks }
  else s

/-- One fan-out pass of the send loop over the track map (cpp lines
    679-687): for each entry, if the track is open, sendFrame is
    called; an exception from sendFrame propagates out of the for
    loop (the try block wraps the whole loop), so no later entry is
    attempted.  Returns the ids whose sendFrame completed, and
    whether an exception escaped the loop. -/
def fanOut : List (String × Sink) → List String × Bool
  | [] => ([], false)
  | (id, t) :: rest =>
    if t.isOpen then
      if t.throwsOnSend then ([], true)
      else
        let r := fanOut rest
        (id :: r.1, r.2)
    else fanOut rest

/-- One send-loop iteration of sendLoop (cpp lines 670-710) after a
    frame is received: the fan-out runs inside one try block under
    the registry lock; an exception is caught and logged after the
    loop; the statistics update (cpp lines 694-702) sits inside the
    try block after the sends, so it is skipped on exception; the
    frame is deleted after the catch in every case, and the loop then
    continues. -/
structure SendIterResult where
  delivered : List String
  exceptionCaught : Bool
  frameFreed : Bool
  statsUpdated : Bool
deriving DecidableEq

def sendIteration (tracks : List (String × Sink)) : SendIterResult :=
  let r := fanOut tracks
  { delivered := r.1
    exceptionCaught := r.2
    frameFreed := true
    statsUpdated := !r.2 }

/-- Ghost step: one send-loop fan-out of frame f against the current
    registry, appending the completed deliveries to the log. -/
def deliverFrame (f : Nat) (s : VS) : VS :=
  { s with deliveries := s.deliveries ++ (fanOut s.tracks).1.map (fun i => (i, f)) }

/-- External operations on one VideoStreamer: an addTrack call (with
    the startStreaming outcome oracle), a removeTrack call, or one
    send-loop fan-out of a freshly produced frame.  The registry lock
    makes these mutually atomic, so an interleaving is a sequence. -/
inductive SOp
  | add (id : String) (track : Option Sink) (oc : StartOutcome)
  | remove (id : String)
  | deliver (f : Nat)

def stepOp (s : VS) : SOp → VS
  | .add id trk oc => (addTrack id trk oc s).1
  | .remove id => removeTrack id s
  | .deliver f => deliverFrame f s

def runOps (s : VS) (ops : List SOp) : VS := ops.foldl stepOp s

/-- State of a freshly constructed VideoStreamer (cpp lines 30-48):
    no tracks, running_ = false, no queue. -/
def initVS : VS :=
  { tracks := [], running := false, queueLen := 0,
    sendLoopExited := false, deliveries := [] }

/-- Control-flow outcome of one sendLoop iteration. -/
inductive LoopExit
  | continueLoop
  | exitLoop
deriving DecidableEq

/-- sendLoop (cpp lines 661-712) is while (true); whether or not
    xQueueReceive returned a frame, the body ends by looping again -
    it contains no break and no return, so no iteration exits. -/
def sendLoopIterOutcome (_received : Bool) : LoopExit :=
  LoopExit.continueLoop

/-- Events of one send-loop iteration, used to express where the
    registry lock is held relative to the sendFrame calls. -/
inductive SendEv
  | acquire
  | send (id : String)
  | release
  | free
deriving DecidableEq

/-- Event trace of one sendLoop iteration on the no-exception path
    (cpp lines 677-709): the std::lock_guard on tracks_mutex_ is
    acquired, then sendFrame is called for every open track while the
    guard is still in scope, then the guard releases the lock at the
    end of its block, and finally the frame is deleted. -/
def sendTrace (tracks : List (String × Sink)) : List SendEv :=
  SendEv.acquire ::
    ((tracks.filter (fun p => p.2.isOpen)).map (fun p => SendEv.send p.1)
      ++ [SendEv.release, SendEv.free])

def evDelta (d : Nat) (e : SendEv) : Nat :=
  match e with
  | .acquire => d + 1
  | .release => d - 1
  | _ => d

/-- Number of unmatched lock acquisitions after a list of events. -/
def lockDepth (tr : List SendEv) : Nat := tr.foldl evDelta 0

/-- The registry lock is held at position i of a trace when the
    events before i contain more acquisitions than releases. -/
def lockHeldAt (tr : List SendEv) (i : Nat) : Bool :=
  decide (0 < lockDepth (tr.take i))

/-
  Capture-encode loop model (captureLoop, cpp lines 526-649).
-/

/-- Messages logged by the capture loop branches that the claims
    distinguish. -/
inductive LogMsg
  | skippedFrame
  | submitFailed
  | queueFullWarn
deriving DecidableEq

/-- Per-iteration device oracle for captureLoop: whether the camera
    VIDIOC_DQBUF succeeds (cpp line 540), whether the encoder input
    VIDIOC_QBUF succeeds (line 559), whether the encoder output
    VIDIOC_DQBUF succeeds (line 575), whether the encoder input
    VIDIOC_DQBUF succeeds (line 624), and the value now returned by
    esp_timer_get_time in microseconds (line 577). -/
structure CaptureEnv where
  camHasFrame : Bool
  submitOk : Bool
  encOutReady : Bool
  encInDqOk : Bool
  now : Nat
deriving DecidableEq

/-- State touched by the capture loop: queue holds the pts values of
    the frames currently in send_queue_ (FIFO); framesInEncoder,
    framesSkipped, capture frame count and video_start_pts_ are the
    fields of the same names; ptsProduced is a ghost log of the pts of
    every frame retrieved from the encoder, in production order; logs
    is a ghost log of warnings. -/
structure CaptureState where
  queue : List Nat
  framesInEncoder : Nat
  framesSkipped : Nat
  captureFrameCount : Nat
  videoStartPts : Nat
  ptsProduced : List Nat
  logs : List LogMsg
deriving DecidableEq

/-- shouldSkipFrame (cpp lines 513-524): skip when the number of
    queued frames is at least SEND_QUEUE_DEPTH * 3 / 4 (= 6). -/
def shouldSkipFrame (s : CaptureState) : Bool :=
  decide (SEND_QUEUE_DEPTH * 3 / 4 ≤ s.queue.length)

/-- Epoch update of the drain stage (cpp lines 581-583): on the first
    retrieval after startStreaming reset video_start_pts_ to 0, the
    epoch becomes the current time; afterwards it is unchanged. -/
def nextEpoch (e now : Nat) : Nat := if e = 0 then now else e

/-- Drain stage of one captureLoop iteration (cpp lines 570-640): if
    an encoded frame is available, compute its pts relative to the
    epoch, increment capture frame count, try a non-blocking push to
    send_queue_ (xQueueSend with timeout 0 succeeds exactly when the
    queue holds fewer than SEND_QUEUE_DEPTH frames; on failure the
    code logs a warning and deletes the frame), then return the
    output buffer and dequeue the input buffer, decrementing
    frames_in_encoder_ when that dequeue succeeds. -/
def drainStage (env : CaptureEnv) (s : CaptureState) : CaptureState :=
  if env.encOutReady then
    let epoch := nextEpoch s.videoStartPts env.now
    let pts := env.now - epoch
    let s1 : CaptureState :=
      { s with videoStartPts := epoch,
               captureFrameCount := s.captureFrameCount + 1,
               ptsProduced := s.ptsProduced ++ [pts] }
    let s2 : CaptureState :=
      if s1.queue.length < SEND_QUEUE_DEPTH then
        { s1 with queue := s1.queue ++ [pts] }
      else
        { s1 with logs := s1.logs ++ [LogMsg.queueFullWarn] }
    if env.encInDqOk then
      { s2 with framesInEncoder := s2.framesInEncoder - 1 }
    else s2
  else s

/-- One iteration of the while (running_) body of captureLoop (cpp
    lines 532-646).  Feed stage: only when frames_in_encoder_ <
    ENCODER_OUTPUT_BUFFERS and the camera has a frame; if
    shouldSkipFrame, the buffer is returned, frames_skipped_ is
    incremented and the iteration restarts (continue) without running
    the drain stage; otherwise the frame is submitted to the encoder
    (incrementing frames_in_encoder_ on success, logging on failure)
    and control falls through to the drain stage. -/
def captureIteration (env : CaptureEnv) (s : CaptureState) : CaptureState :=
  if s.framesInEncoder < ENCODER_OUTPUT_BUFFERS then
    if env.camHasFrame then
      if shouldSkipFrame s then
        { s with framesSkipped := s.framesSkipped + 1,
                 logs := s.logs ++ [LogMsg.skippedFrame] }
      else
        drainStage env
          (if env.submitOk then
            { s with framesInEncoder := s.framesInEncoder + 1 }
          else
            { s with logs := s.logs ++ [LogMsg.submitFailed] })
    else drainStage env s
  else drainStage env s

def runCapture (envs : List CaptureEnv) (s : CaptureState) : CaptureState :=
  envs.foldl (fun st e => captureIteration e st) s

/-- Capture-loop state right after startStreaming (cpp lines
    399-404): video_start_pts_, capture_frame_count_,
    frames_in_encoder_ and frames_skipped_ are all reset to 0 and the
    freshly created queue is empty. -/
def streamStartState : CaptureState :=
  { queue := [], framesInEncoder := 0, framesSkipped := 0,
    captureFrameCount := 0, videoStartPts := 0, ptsProduced := [],
    logs := [] }

/-- Environment of one fully busy iteration: the camera always has a
    frame, submissions succeed, and a submitted frame is encoded and
    retrievable within the same iteration. -/
def busyEnv (t : Nat) : CaptureEnv :=
  { camHasFrame := true, submitOk := true, encOutReady := true,
    encInDqOk := true, now := t }

/-- Boolean test that a list of naturals is non-decreasing. -/
def nonDecreasing : List Nat → Bool
  | [] => true
  | [_] => true
  | a :: b :: r => decide (a ≤ b) && nonDecreasing (b :: r)

/-- Boolean test that the timer values of an environment list are
    non-decreasing and bounded below by b. -/
def nowsChain (b : Nat) : List CaptureEnv → Bool
  | [] => true
  | e :: es => decide (b ≤ e.now) && nowsChain e.now es

/-
  Concrete scenario inputs.
-/

/-- Ten successive busy iterations with a strictly increasing timer. -/
def envs10 : List CaptureEnv := (List.range 10).map (fun i => busyEnv (10 * (i + 1)))

/-- A track whose sendFrame always throws. -/
def throwingSink : Sink := { isOpen := true, throwsOnSend := true }

/-- A well-behaved open track. -/
def okSink : Sink := { isOpen := true, throwsOnSend := false }

/-- Two open tracks; the std::map iterates keys in sorted order, so
    the throwing track "a" is visited before the healthy track "b". -/
def c3Tracks : List (String × Sink) := [("a", throwingSink), ("b", okSink)]

/-- Registry with a single healthy open track. -/
def c5Tracks : List (String × Sink) := [("a", okSink)]

/-- A streamer with one track, a running pipeline, five queued frames
    and a send task that has not exited. -/
def c2State : VS :=
  { tracks := [("a", okSink)], running := true, queueLen := 5,
    sendLoopExited := false, deliveries := [] }

/-- Drain-stage state with the send queue completely full (8 frames)
    and one frame inside the encoder. -/
def fullQState : CaptureState :=
  { queue := List.replicate 8 10, framesInEncoder := 1,
    framesSkipped := 2, captureFrameCount := 12, videoStartPts := 5,
    ptsProduced := [], logs := [] }

/-- Same counters as fullQState but with room in the queue. -/
def roomQState : CaptureState :=
  { fullQState with queue := List.replicate 5 10 }

/-- Oracle for an iteration in which only the drain stage runs and an
    encoded frame is ready. -/
def overflowEnv : CaptureEnv :=
  { camHasFrame := false, submitOk := true, encOutReady := true,
    encInDqOk := true, now := 50 }

/-
  Claims.
-/

/-- C4: with queue capacity 8 and skip threshold 6, the consumer
    never draining and ten successive capture frames each immediately
    encodable, the capture loop encodes and enqueues frames 1-6 (the
    occupancy checked before each submission being 0,1,2,3,4,5) and
    skips frames 7-10 before encoding, leaving queue length 6 and a
    skip counter of 4. -/
theorem c4_skip_determinism :
    (runCapture envs10 streamStartState).queue.length = 6 ∧
    (runCapture envs10 streamStartState).framesSkipped = 4 ∧
    (runCapture envs10 streamStartState).captureFrameCount = 6 ∧
    (List.range 10).map
        (fun k => (runCapture (envs10.take k) streamStartState).queue.length)
      = [0, 1, 2, 3, 4, 5, 6, 6, 6, 6] := by
  decide

/-- C3 counterexample: with two open tracks where the first in map
    order throws, the exception is caught only outside the fan-out
    loop, so the second track does not receive the frame. -/
theorem c3_throw_starves_later_sinks :
    (sendIteration c3Tracks).exceptionCaught = true ∧
    ¬ "b" ∈ (sendIteration c3Tracks).delivered := by
  decide

/-- C5 counterexample: in the send-loop iteration trace over one open
    track, the sendFrame event at position 1 happens while the
    registry lock is held - the lock is not released before the send
    I/O, because there is no snapshot and the lock_guard scope
    encloses the sendFrame calls. -/
theorem c5_send_happens_under_lock :
    (sendTrace c5Tracks).get? 1 = some (SendEv.send "a") ∧
    lockHeldAt (sendTrace c5Tracks) 1 = true := by
  decide

/-- C7 counterexample: an overflow iteration (full queue) and a
    success iteration started from the same counters end with exactly
    the same counter values - the overflow is logged and the frame
    dropped, but no counter records the occurrence. -/
theorem c7_overflow_not_counted :
    (captureIteration overflowEnv fullQState).framesSkipped
        = (captureIteration overflowEnv roomQState).framesSkipped ∧
    (captureIteration overflowEnv fullQState).captureFrameCount
        = (captureIteration overflowEnv roomQState).captureFrameCount ∧
    (captureIteration overflowEnv fullQState).framesInEncoder
        = (captureIteration overflowEnv roomQState).framesInEncoder ∧
    (captureIteration overflowEnv fullQState).queue = fullQState.queue ∧
    (captureIteration overflowEnv roomQState).queue.length = 6 ∧
    LogMsg.queueFullWarn ∈ (captureIteration overflowEnv fullQState).logs := by
  decide

/-- C2: removing the last track drains the send queue to length 0,
    but the send loop has not terminated when removeTrack returns:
    sendLoop is while (true) and every iteration continues, and
    stopStreaming only sleeps a fixed 100 ms instead of joining the
    tasks, so sendLoopExited is still false. -/
theorem c2_removeTrack_does_not_join_loops :
    (∀ received : Bool, sendLoopIterOutcome received = LoopExit.continueLoop) ∧
    removeTrack "a" c2State
      = { tracks := [], running := false, queueLen := 0,
          sendLoopExited := false, deliveries := [] } := by
  exact ⟨fun _ => rfl, by decide⟩

/-- Preservation of the lifecycle invariant by a single operation. -/
lemma lifecycle_inv_step (s : VS) (op : SOp)
    (h : s.running = true ↔ s.tracks ≠ []) :
    ((stepOp s op).running = true ↔ (stepOp s op).tracks ≠ []) := by
  obtain ⟨tr, run, ql, sx, dl⟩ := s
  cases op with
  | deliver f => simpa [stepOp, deliverFrame] using h
  | add id trk oc =>
      cases trk with
      | none => simpa [stepOp, addTrack] using h
      | some t =>
          cases run with
          | true => simp [stepOp, addTrack, mapInsert]
          | false =>
              have htr : tr = [] := by
                by_contra hne
                have := h.mpr hne
                simp at this
              subst htr
              cases oc <;>
                simp [stepOp, addTrack, startStreaming, stopStreaming,
                  mapInsert, mapErase]
  | remove id =>
      simp only [stepOp, removeTrack]
      by_cases hmem : (tr.any (fun p => p.1 = id)) = true
      · have htr : tr ≠ [] := by
          intro h0
          subst h0
          simp at hmem
        rw [if_pos hmem]
        by_cases hemp : (mapErase id tr).isEmpty = true
        · have hnil : mapErase id tr = [] := List.isEmpty_iff.mp hemp
          rw [if_pos (by simpa using hemp)]
          cases run with
          | false => simp [stopStreaming, hnil]
          | true => simp [stopStreaming]
        · have hne : mapErase id tr ≠ [] := by
            intro h0
            exact hemp (by simp [h0])
          have hrun : run = true := h.mpr htr
          subst hrun
          rw [if_neg (by simpa using hemp)]
          simp [hne]
      · simpa [hmem] using h

/-- C1: for every sequence of addTrack / removeTrack calls (and
    interleaved send-loop fan-outs), the pipeline is running exactly
    when the track registry is non-empty; addTrack starts streaming
    on the 0-to-1 edge and removeTrack stops it on the 1-to-0 edge,
    which is what makes the equivalence inductive. -/
theorem c1_lifecycle_invariant :
    ∀ ops : List SOp,
      ((runOps initVS ops).running = true ↔ (runOps initVS ops).tracks ≠ []) := by
  have main : ∀ (ops : List SOp) (s : VS),
      (s.running = true ↔ s.tracks ≠ []) →
      ((runOps s ops).running = true ↔ (runOps s ops).tracks ≠ []) := by
    intro ops
    induction ops with
    | nil => intro s h; simpa [runOps] using h
    | cons op rest ih =>
        intro s h
        have h1 := lifecycle_inv_step s op h
        simpa [runOps] using ih (stepOp s op) h1
  intro ops
  exact main ops initVS (by simp [initVS])

/-- C8: an addTrack call on an empty registry whose startStreaming
    attempt fails returns false, leaves running false (Idle) and
    leaves the registry unchanged (the track is not registered). -/
theorem c8_addTrack_failure_atomicity :
    ∀ (id : String) (t : Sink) (oc : StartOutcome) (s : VS),
      s.tracks = [] → s.running = false → oc ≠ StartOutcome.success →
      (addTrack id (some t) oc s).2 = false ∧
      (addTrack id (some t) oc s).1.running = false ∧
      (addTrack id (some t) oc s).1.tracks = s.tracks := by
  intro id t oc s h1 h2 h3
  obtain ⟨tr, run, ql, sx, dl⟩ := s
  simp only at h1 h2
  subst h1
  subst h2
  cases oc with
  | success => exact absurd rfl h3
  | earlyFail =>
      simp [addTrack, startStreaming, mapInsert, mapErase]
  | lateFail =>
      simp [addTrack, startStreaming, stopStreaming, mapInsert, mapErase]

/-- Witness for c8_addTrack_failure_atomicity at a concrete input. -/
theorem c8_witness :
    initVS.tracks = [] ∧ initVS.running = false ∧
    StartOutcome.earlyFail ≠ StartOutcome.success ∧
    ((addTrack "a" (some okSink) StartOutcome.earlyFail initVS).2 = false ∧
     (addTrack "a" (some okSink) StartOutcome.earlyFail initVS).1.running = false ∧
     (addTrack "a" (some okSink) StartOutcome.earlyFail initVS).1.tracks
        = initVS.tracks) :=
  ⟨rfl, rfl, by decide,
    c8_addTrack_failure_atomicity "a" okSink StartOutcome.earlyFail initVS
      rfl rfl (by decide)⟩

/-- C10: an iteration in which the feed stage skips the captured
    frame restarts immediately (continue), so the drain stage does
    not run: nothing is retrieved from the encoder or enqueued, and
    only the skip counter changes. -/
theorem c10_skip_restarts_iteration :
    ∀ (env : CaptureEnv) (s : CaptureState),
      s.framesInEncoder < ENCODER_OUTPUT_BUFFERS →
      env.camHasFrame = true →
      shouldSkipFrame s = true →
      (captureIteration env s).queue = s.queue ∧
      (captureIteration env s).captureFrameCount = s.captureFrameCount ∧
      (captureIteration env s).ptsProduced = s.ptsProduced ∧
      (captureIteration env s).framesInEncoder = s.framesInEncoder ∧
      (captureIteration env s).videoStartPts = s.videoStartPts ∧
      (captureIteration env s).framesSkipped = s.framesSkipped + 1 := by
  intro env s h1 h2 h3
  simp [captureIteration, h1, h2, h3]

/-- Witness for c10_skip_restarts_iteration at a concrete input. -/
theorem c10_witness :
    fullQState.framesInEncoder < ENCODER_OUTPUT_BUFFERS ∧
    (busyEnv 5).camHasFrame = true ∧
    shouldSkipFrame fullQState = true ∧
    ((captureIteration (busyEnv 5) fullQState).queue = fullQState.queue ∧
     (captureIteration (busyEnv 5) fullQState).captureFrameCount
        = fullQState.captureFrameCount ∧
     (captureIteration (busyEnv 5) fullQState).ptsProduced
        = fullQState.ptsProduced ∧
     (captureIteration (busyEnv 5) fullQState).framesInEncoder
        = fullQState.framesInEncoder ∧
     (captureIteration (busyEnv 5) fullQState).videoStartPts
        = fullQState.videoStartPts ∧
     (captureIteration (busyEnv 5) fullQState).framesSkipped
        = fullQState.framesSkipped + 1) :=
  ⟨by decide, rfl, by decide,
    c10_skip_restarts_iteration (busyEnv 5) fullQState (by decide) rfl (by decide)⟩

/-- C7 amended: when the non-blocking push fails because the queue is
    full, the warning is logged and the frame is dropped (the queue is
    unchanged, so the frame is destroyed, not enqueued or leaked), the
    intentional-skip counter is not incremented - and no other counter
    records the occurrence either (capture frame count increments on
    every retrieval, overflow or not). -/
theorem c7_amended_overflow_logged_dropped_uncounted :
    ∀ (env : CaptureEnv) (s : CaptureState),
      env.encOutReady = true →
      ¬ s.queue.length < SEND_QUEUE_DEPTH →
      (drainStage env s).queue = s.queue ∧
      (drainStage env s).framesSkipped = s.framesSkipped ∧
      (drainStage env s).captureFrameCount = s.captureFrameCount + 1 ∧
      LogMsg.queueFullWarn ∈ (drainStage env s).logs := by
  intro env s h1 h2
  cases henc : env.encInDqOk <;> simp [drainStage, h1, h2, henc]

/-- Witness for c7_amended_overflow_logged_dropped_uncounted. -/
theorem c7_witness :
    overflowEnv.encOutReady = true ∧
    ¬ fullQState.queue.length < SEND_QUEUE_DEPTH ∧
    ((drainStage overflowEnv fullQState).queue = fullQState.queue ∧
     (drainStage overflowEnv fullQState).framesSkipped = fullQState.framesSkipped ∧
     (drainStage overflowEnv fullQState).captureFrameCount
        = fullQState.captureFrameCount + 1 ∧
     LogMsg.queueFullWarn ∈ (drainStage overflowEnv fullQState).logs) :=
  ⟨rfl, by decide,
    c7_amended_overflow_logged_dropped_uncounted overflowEnv fullQState
      rfl (by decide)⟩

/-- Fan-out over a registry whose first throwing entry is preceded by
    non-throwing entries: the open entries of the prefix complete
    their sends, the exception escapes the loop at the throwing
    entry, and nothing after it is attempted. -/
lemma fanOut_append_throw :
    ∀ (pre : List (String × Sink)) (id : String) (t : Sink)
      (suf : List (String × Sink)),
      (∀ p ∈ pre, p.2.throwsOnSend = false) →
      t.isOpen = true → t.throwsOnSend = true →
      fanOut (pre ++ (id, t) :: suf)
        = ((pre.filter (fun p => p.2.isOpen)).map (fun p => p.1), true) := by
  intro pre id t suf
  induction pre with
  | nil =>
      intro hpre hop hth
      simp [fanOut, hop, hth]
  | cons q rest ih =>
      intro hpre hop hth
      obtain ⟨qid, qs⟩ := q
      have hq : qs.throwsOnSend = false := hpre (qid, qs) (by simp)
      have hrest : ∀ p ∈ rest, p.2.throwsOnSend = false := by
        intro p hp
        exact hpre p (by simp [hp])
      by_cases hqo : qs.isOpen = true
      · simp [fanOut, hqo, hq, ih hrest hop hth, List.filter_cons]
      · simp only [Bool.not_eq_true] at hqo
        simp [fanOut, hqo, ih hrest hop hth, List.filter_cons]

/-- C3 amended: when one track sendFrame throws, the exception is
    caught and logged outside the fan-out loop (the frame is freed
    and the send loop continues, with the statistics update skipped),
    the open tracks before the throwing one in map iteration order
    have already received the frame, but tracks after it do not
    receive it. -/
theorem c3_amended_throw_caught_but_aborts_rest :
    ∀ (pre suf : List (String × Sink)) (id : String) (t : Sink),
      (∀ p ∈ pre, p.2.throwsOnSend = false) →
      t.isOpen = true → t.throwsOnSend = true →
      sendIteration (pre ++ (id, t) :: suf)
        = { delivered := (pre.filter (fun p => p.2.isOpen)).map (fun p => p.1),
            exceptionCaught := true, frameFreed := true,
            statsUpdated := false } := by
  intro pre suf id t hpre hop hth
  simp [sendIteration, fanOut_append_throw pre id t suf hpre hop hth]

/-- Witness for c3_amended_throw_caught_but_aborts_rest. -/
theorem c3_witness :
    (∀ p ∈ [("x", okSink)], p.2.throwsOnSend = false) ∧
    throwingSink.isOpen = true ∧ throwingSink.throwsOnSend = true ∧
    sendIteration ([("x", okSink)] ++ ("a", throwingSink) :: [])
      = { delivered := ["x"], exceptionCaught := true, frameFreed := true,
          statsUpdated := false } := by
  refine ⟨by decide, rfl, rfl, ?_⟩
  rw [c3_amended_throw_caught_but_aborts_rest [("x", okSink)] [] "a"
    throwingSink (by decide) rfl rfl]
  decide

/-- Recogniser for sendFrame events. -/
def isSendEv : SendEv → Bool
  | .send _ => true
  | _ => false

/-- A run of sendFrame events leaves the lock depth unchanged. -/
lemma foldl_evDelta_sends :
    ∀ (sends : List SendEv), (∀ e ∈ sends, isSendEv e = true) →
      ∀ d, List.foldl evDelta d sends = d := by
  intro sends
  induction sends with
  | nil => intro _ d; rfl
  | cons e rest ih =>
      intro h d
      have he : isSendEv e = true := h e (by simp)
      have hd : evDelta d e = d := by
        cases e with
        | acquire => simp [isSendEv] at he
        | send i => rfl
        | release => simp [isSendEv] at he
        | free => rfl
      rw [List.foldl_cons, hd]
      exact ih (fun x hx => h x (by simp [hx])) d

/-- A sendFrame event found in sends ++ [release, free] lies inside
    the sends portion. -/
lemma send_index_lt :
    ∀ (sends : List SendEv), (∀ e ∈ sends, isSendEv e = true) →
      ∀ (j : Nat) (id : String),
        (sends ++ [SendEv.release, SendEv.free]).get? j
            = some (SendEv.send id) →
        j < sends.length := by
  intro sends
  induction sends with
  | nil =>
      intro _ j id h
      exfalso
      cases j with
      | zero => simp at h
      | succ j1 =>
          cases j1 with
          | zero => simp at h
          | succ j2 => simp at h
  | cons e rest ih =>
      intro hall j id h
      cases j with
      | zero => simp
      | succ j1 =>
          have h1 : (rest ++ [SendEv.release, SendEv.free]).get? j1
              = some (SendEv.send id) := by simpa using h
          have := ih (fun x hx => hall x (by simp [hx])) j1 id h1
          simpa using Nat.succ_lt_succ this

/-- C5 amended: in every send-loop iteration, every sendFrame call
    happens while the registry lock is held - the code holds
    tracks_mutex_ across the sink I/O instead of snapshotting the
    registry and releasing the lock first, so a slow or blocked
    sendFrame does stall addTrack and removeTrack. -/
theorem c5_amended_every_send_under_lock :
    ∀ (tracks : List (String × Sink)) (i : Nat) (id : String),
      (sendTrace tracks).get? i = some (SendEv.send id) →
      lockHeldAt (sendTrace tracks) i = true := by
  intro tracks i id h
  have hsends : ∀ e ∈ (tracks.filter (fun p => p.2.isOpen)).map
      (fun p => SendEv.send p.1), isSendEv e = true := by
    intro e he
    obtain ⟨p, _, rfl⟩ := List.mem_map.mp he
    rfl
  cases i with
  | zero => simp [sendTrace] at h
  | succ j =>
      have h1 : (((tracks.filter (fun p => p.2.isOpen)).map
            (fun p => SendEv.send p.1))
          ++ [SendEv.release, SendEv.free]).get? j
          = some (SendEv.send id) := by
        simpa [sendTrace] using h
      have hj : j < ((tracks.filter (fun p => p.2.isOpen)).map
          (fun p => SendEv.send p.1)).length :=
        send_index_lt _ hsends j id h1
      have htake : (sendTrace tracks).take (j + 1)
          = SendEv.acquire :: ((tracks.filter (fun p => p.2.isOpen)).map
              (fun p => SendEv.send p.1)).take j := by
        simp [sendTrace, List.take_append_of_le_length (Nat.le_of_lt hj)]
      have hfold : List.foldl evDelta 1
          (((tracks.filter (fun p => p.2.isOpen)).map
            (fun p => SendEv.send p.1)).take j) = 1 :=
        foldl_evDelta_sends _
          (fun e he => hsends e (List.mem_of_mem_take he)) 1
      simp [lockHeldAt, lockDepth, htake, evDelta, hfold]

/-- Witness for c5_amended_every_send_under_lock. -/
theorem c5_amended_witness :
    (sendTrace c5Tracks).get? 1 = some (SendEv.send "a") ∧
    lockHeldAt (sendTrace c5Tracks) 1 = true :=
  ⟨by decide, c5_amended_every_send_under_lock c5Tracks 1 "a" (by decide)⟩

/-- Boolean test that an operation list contains no addTrack call for
    the given client id. -/
def noAddOf (id : String) : List SOp → Bool
  | [] => true
  | SOp.add i _ _ :: rest => decide (i ≠ id) && noAddOf id rest
  | _ :: rest => noAddOf id rest

lemma mem_mapInsert {p : String × Sink} {i : String} {t : Sink}
    {m : List (String × Sink)} (h : p ∈ mapInsert i t m) :
    p = (i, t) ∨ p ∈ m := by
  rcases List.mem_cons.mp h with h1 | h1
  · exact Or.inl h1
  · exact Or.inr (List.mem_filter.mp h1).1

lemma mem_mapErase {p : String × Sink} {i : String}
    {m : List (String × Sink)} (h : p ∈ mapErase i m) : p ∈ m :=
  (List.mem_filter.mp h).1

lemma key_ne_of_mem_mapErase {p : String × Sink} {i : String}
    {m : List (String × Sink)} (h : p ∈ mapErase i m) : p.1 ≠ i := by
  have := (List.mem_filter.mp h).2
  simpa using this

lemma stopStreaming_tracks_sub {s : VS} :
    ∀ p ∈ (stopStreaming s).tracks, p ∈ s.tracks := by
  intro p hp
  unfold stopStreaming at hp
  split at hp
  · simp at hp
  · exact hp

lemma stopStreaming_deliveries (s : VS) :
    (stopStreaming s).deliveries = s.deliveries := by
  unfold stopStreaming
  split <;> rfl

lemma startStreaming_tracks_sub {oc : StartOutcome} {s : VS} :
    ∀ p ∈ (startStreaming oc s).1.tracks, p ∈ s.tracks := by
  intro p hp
  unfold startStreaming at hp
  split at hp
  · exact hp
  · cases oc with
    | success => exact hp
    | earlyFail => exact hp
    | lateFail =>
        exact @stopStreaming_tracks_sub
          { s with running := true, queueLen := 0 } p hp

lemma startStreaming_deliveries (oc : StartOutcome) (s : VS) :
    (startStreaming oc s).1.deliveries = s.deliveries := by
  unfold startStreaming
  split
  · rfl
  · cases oc with
    | success => rfl
    | earlyFail => rfl
    | lateFail => exact stopStreaming_deliveries _

lemma addTrack_tracks_key (i : String) (t : Sink) (oc : StartOutcome)
    (s : VS) :
    ∀ p ∈ (addTrack i (some t) oc s).1.tracks, p.1 = i ∨ p ∈ s.tracks := by
  intro p hp
  simp only [addTrack] at hp
  split at hp
  · dsimp only at hp
    rcases mem_mapInsert hp with h1 | h1
    · exact Or.inl (by rw [h1])
    · exact Or.inr h1
  · split at hp
    · dsimp only at hp
      rcases mem_mapInsert (startStreaming_tracks_sub p hp) with h4 | h4
      · exact Or.inl (by rw [h4])
      · exact Or.inr h4
    · dsimp only at hp
      have h2 : p ∈ (startStreaming oc
          { s with tracks := mapInsert i t s.tracks }).1.tracks :=
        mem_mapErase hp
      rcases mem_mapInsert (startStreaming_tracks_sub p h2) with h4 | h4
      · exact Or.inl (by rw [h4])
      · exact Or.inr h4

lemma addTrack_deliveries (i : String) (trk : Option Sink)
    (oc : StartOutcome) (s : VS) :
    (addTrack i trk oc s).1.deliveries = s.deliveries := by
  cases trk with
  | none => rfl
  | some t =>
      simp only [addTrack]
      split
      · rfl
      · split
        · dsimp only
          exact startStreaming_deliveries _ _
        · dsimp only
          exact startStreaming_deliveries _ _

lemma removeTrack_tracks_sub {i : String} {s : VS} :
    ∀ p ∈ (removeTrack i s).tracks, p ∈ s.tracks := by
  intro p hp
  unfold removeTrack at hp
  split at hp
  · split at hp
    · exact mem_mapErase (stopStreaming_tracks_sub p hp)
    · exact mem_mapErase hp
  · exact hp

lemma removeTrack_deliveries (i : String) (s : VS) :
    (removeTrack i s).deliveries = s.deliveries := by
  unfold removeTrack
  split
  · split
    · exact stopStreaming_deliveries _
    · rfl
  · rfl

/-- After removeTrack id returns, no entry for id is registered. -/
lemma removeTrack_key_absent (id : String) (s : VS) :
    ∀ p ∈ (removeTrack id s).tracks, p.1 ≠ id := by
  intro p hp
  unfold removeTrack at hp
  split at hp
  · split at hp
    · exact key_ne_of_mem_mapErase (stopStreaming_tracks_sub p hp)
    · exact key_ne_of_mem_mapErase hp
  · rename_i hmem
    intro hcontra
    exact hmem (List.any_eq_true.mpr ⟨p, hp, by simpa using hcontra⟩)

/-- Every id delivered by one fan-out pass is a key of the registry
    the pass was given. -/
lemma fanOut_delivered_mem :
    ∀ (l : List (String × Sink)) (x : String),
      x ∈ (fanOut l).1 → ∃ t, (x, t) ∈ l := by
  intro l
  induction l with
  | nil => intro x hx; simp [fanOut] at hx
  | cons q rest ih =>
      intro x hx
      obtain ⟨qid, qs⟩ := q
      by_cases ho : qs.isOpen = true
      · by_cases ht : qs.throwsOnSend = true
        · simp [fanOut, ho, ht] at hx
        · simp only [fanOut, ho, ht] at hx
          simp only [if_true, Bool.false_eq_true, if_false] at hx
          rcases List.mem_cons.mp hx with h1 | h1
          · exact ⟨qs, by simp [h1]⟩
          · obtain ⟨t, htmem⟩ := ih x h1
            exact ⟨t, by simp [htmem]⟩
      · simp only [Bool.not_eq_true] at ho
        simp only [fanOut, ho, Bool.false_eq_true, if_false] at hx
        obtain ⟨t, htmem⟩ := ih x hx
        exact ⟨t, by simp [htmem]⟩

/-- A step that is not an addTrack of id keeps id absent from the
    registry. -/
lemma step_preserves_absent (s : VS) (op : SOp) (id : String)
    (hA : ∀ p ∈ s.tracks, p.1 ≠ id)
    (hop : ∀ trk oc, op ≠ SOp.add id trk oc) :
    ∀ p ∈ (stepOp s op).tracks, p.1 ≠ id := by
  cases op with
  | deliver f => simpa [stepOp, deliverFrame] using hA
  | remove i => exact fun p hp => hA p (removeTrack_tracks_sub p hp)
  | add i trk oc =>
      have hi : i ≠ id := by
        intro h0
        exact hop trk oc (by rw [h0])
      cases trk with
      | none => simpa [stepOp, addTrack] using hA
      | some t =>
          intro p hp
          rcases addTrack_tracks_key i t oc s p hp with h1 | h1
          · rw [h1]; exact hi
          · exact hA p h1

/-- A step whose operation is not an addTrack of id and whose start
    state has no entry for id adds no delivery to id. -/
lemma step_no_new_delivery (s : VS) (op : SOp) (id : String) (f : Nat)
    (hA : ∀ p ∈ s.tracks, p.1 ≠ id)
    (hf : (id, f) ∈ (stepOp s op).deliveries) :
    (id, f) ∈ s.deliveries := by
  cases op with
  | add i trk oc =>
      rw [stepOp, addTrack_deliveries] at hf
      exact hf
  | remove i =>
      rw [stepOp, removeTrack_deliveries] at hf
      exact hf
  | deliver g =>
      simp only [stepOp, deliverFrame] at hf
      rcases List.mem_append.mp hf with h1 | h1
      · exact h1
      · exfalso
        obtain ⟨x, hx, hxeq⟩ := List.mem_map.mp h1
        have hxid : x = id := congrArg Prod.fst hxeq
        obtain ⟨t, htmem⟩ := fanOut_delivered_mem s.tracks x hx
        exact hA (x, t) htmem (by simpa using hxid)

/-- Once id is absent from the registry, running any operations that
    never re-add id produces no new delivery to id. -/
lemma no_delivery_after_removal_aux :
    ∀ (ops : List SOp) (id : String) (s : VS),
      (∀ p ∈ s.tracks, p.1 ≠ id) → noAddOf id ops = true →
      ∀ f, (id, f) ∈ (runOps s ops).deliveries → (id, f) ∈ s.deliveries := by
  intro ops
  induction ops with
  | nil => intro id s _ _ f hf; simpa [runOps] using hf
  | cons op rest ih =>
      intro id s hA hno f hf
      have hsplit : noAddOf id rest = true ∧ ∀ trk oc, op ≠ SOp.add id trk oc := by
        cases op with
        | add i trk oc =>
            simp only [noAddOf, Bool.and_eq_true, decide_eq_true_eq] at hno
            refine ⟨hno.2, ?_⟩
            intro trk2 oc2 h0
            injection h0 with h1 h2 h3
            exact hno.1 h1
        | remove i =>
            exact ⟨by simpa [noAddOf] using hno, fun trk oc h0 => by cases h0⟩
        | deliver g =>
            exact ⟨by simpa [noAddOf] using hno, fun trk oc h0 => by cases h0⟩
      have hno1 : noAddOf id rest = true := hsplit.1
      have hop : ∀ trk oc, op ≠ SOp.add id trk oc := hsplit.2
      have hA1 := step_preserves_absent s op id hA hop
      have hf1 : (id, f) ∈ (stepOp s op).deliveries :=
        ih id (stepOp s op) hA1 hno1 f (by simpa [runOps] using hf)
      exact step_no_new_delivery s op id f hA hf1

/-- C6: once removeTrack id has returned, no frame produced afterward
    is ever delivered to that client: any delivery to id present after
    running further operations (none of which re-add id) was already
    in the log when removeTrack returned. -/
theorem c6_no_post_removal_delivery :
    ∀ (ops1 : List SOp) (id : String) (ops2 : List SOp) (f : Nat),
      noAddOf id ops2 = true →
      (id, f) ∈ (runOps (runOps initVS (ops1 ++ [SOp.remove id])) ops2).deliveries →
      (id, f) ∈ (runOps initVS (ops1 ++ [SOp.remove id])).deliveries := by
  intro ops1 id ops2 f hno hf
  have hsplit : runOps initVS (ops1 ++ [SOp.remove id])
      = removeTrack id (runOps initVS ops1) := by
    simp [runOps, List.foldl_append, stepOp]
  refine no_delivery_after_removal_aux ops2 id _ ?_ hno f hf
  rw [hsplit]
  exact removeTrack_key_absent id _

/-- Witness for c6_no_post_removal_delivery. -/
theorem c6_witness :
    noAddOf "a" [SOp.deliver 9] = true ∧
    ("a", 7) ∈ (runOps (runOps initVS
        ([SOp.add "a" (some okSink) StartOutcome.success, SOp.deliver 7]
          ++ [SOp.remove "a"])) [SOp.deliver 9]).deliveries ∧
    ("a", 7) ∈ (runOps initVS
        ([SOp.add "a" (some okSink) StartOutcome.success, SOp.deliver 7]
          ++ [SOp.remove "a"])).deliveries :=
  ⟨by decide, by decide,
    c6_no_post_removal_delivery
      [SOp.add "a" (some okSink) StartOutcome.success, SOp.deliver 7]
      "a" [SOp.deliver 9] 7 (by decide) (by decide)⟩

/-- Invariant tying the epoch register video_start_pts_ (e) and the
    list of produced timestamps (ps) to a lower bound b on every
    timer value still to come: the produced timestamps are
    non-decreasing, the first one is 0, while the epoch register is
    still 0 every produced timestamp is 0, and once the epoch is
    recorded it is at most b and bounds the timestamps by b - e. -/
def EpochInvP (e : Nat) (ps : List Nat) (b : Nat) : Prop :=
  nonDecreasing ps = true ∧
  (∀ p, ps.head? = some p → p = 0) ∧
  (e = 0 → ∀ p ∈ ps, p = 0) ∧
  (e ≠ 0 → e ≤ b ∧ ps ≠ [] ∧ ∀ p ∈ ps, p ≤ b - e)

lemma nonDecreasing_append_singleton :
    ∀ (l : List Nat) (x : Nat), nonDecreasing l = true →
      (∀ p ∈ l, p ≤ x) → nonDecreasing (l ++ [x]) = true := by
  intro l
  induction l with
  | nil => intro x _ _; simp [nonDecreasing]
  | cons a rest ih =>
      intro x h hmem
      cases rest with
      | nil =>
          have hax : a ≤ x := hmem a (by simp)
          simp [nonDecreasing, hax]
      | cons b r =>
          have h1 : a ≤ b ∧ nonDecreasing (b :: r) = true := by
            simpa [nonDecreasing, Bool.and_eq_true, decide_eq_true_eq] using h
          have h2 := ih x h1.2 (fun p hp => hmem p (List.mem_cons_of_mem a hp))
          simp only [List.cons_append, nonDecreasing, Bool.and_eq_true,
            decide_eq_true_eq]
          exact ⟨h1.1, by simpa using h2⟩

lemma epochInvP_mono (e : Nat) (ps : List Nat) (b c : Nat)
    (h : EpochInvP e ps b) (hbc : b ≤ c) : EpochInvP e ps c := by
  unfold EpochInvP at h ⊢
  obtain ⟨hnd, hhd, hz, hnz⟩ := h
  refine ⟨hnd, hhd, hz, ?_⟩
  intro he
  obtain ⟨heb, hne, hbound⟩ := hnz he
  exact ⟨le_trans heb hbc, hne,
    fun p hp => le_trans (hbound p hp) (Nat.sub_le_sub_right hbc e)⟩

lemma epochInvP_produce (e : Nat) (ps : List Nat) (b t : Nat)
    (h : EpochInvP e ps b) (hbt : b ≤ t) :
    EpochInvP (nextEpoch e t) (ps ++ [t - nextEpoch e t]) t := by
  unfold EpochInvP at h ⊢
  obtain ⟨hnd, hhd, hz, hnz⟩ := h
  by_cases he : e = 0
  · subst he
    have hnep : nextEpoch 0 t = t := by simp [nextEpoch]
    rw [hnep, Nat.sub_self]
    have hall : ∀ p ∈ ps, p = 0 := hz rfl
    have hall2 : ∀ p ∈ ps ++ [0], p = 0 := by
      intro p hp
      rcases List.mem_append.mp hp with h1 | h1
      · exact hall p h1
      · simpa using h1
    refine ⟨?_, ?_, fun _ => hall2, ?_⟩
    · exact nonDecreasing_append_singleton ps 0 hnd
        (fun p hp => le_of_eq (hall p hp))
    · intro p hp
      cases ps with
      | nil =>
          simp only [List.nil_append, List.head?_cons] at hp
          injection hp with h1
          exact h1.symm
      | cons a r =>
          simp only [List.cons_append, List.head?_cons] at hp
          injection hp with h1
          exact h1 ▸ hall a (List.mem_cons_self a r)
    · intro _
      refine ⟨le_refl t, by simp, ?_⟩
      intro p hp
      exact le_of_eq (hall2 p hp)
  · have hnep : nextEpoch e t = e := by simp [nextEpoch, he]
    rw [hnep]
    obtain ⟨heb, hne, hbound⟩ := hnz he
    have hsub : b - e ≤ t - e := Nat.sub_le_sub_right hbt e
    refine ⟨?_, ?_, fun h0 => absurd h0 he,
      fun _ => ⟨le_trans heb hbt, by simp, ?_⟩⟩
    · exact nonDecreasing_append_singleton ps (t - e) hnd
        (fun p hp => le_trans (hbound p hp) hsub)
    · intro p hp
      cases ps with
      | nil => exact absurd rfl hne
      | cons a r =>
          simp only [List.cons_append, List.head?_cons] at hp
          injection hp with h1
          exact h1 ▸ hhd a rfl
    · intro p hp
      rcases List.mem_append.mp hp with h1 | h1
      · exact le_trans (hbound p h1) hsub
      · rw [List.mem_singleton.mp h1]

lemma drainStage_epochInvP (env : CaptureEnv) (s : CaptureState) (b : Nat)
    (h : EpochInvP s.videoStartPts s.ptsProduced b) (hbt : b ≤ env.now) :
    EpochInvP (drainStage env s).videoStartPts
      (drainStage env s).ptsProduced env.now := by
  unfold drainStage
  by_cases hout : env.encOutReady = true
  · rw [if_pos hout]
    dsimp only
    split
    · split
      · exact epochInvP_produce _ _ _ _ h hbt
      · exact epochInvP_produce _ _ _ _ h hbt
    · split
      · exact epochInvP_produce _ _ _ _ h hbt
      · exact epochInvP_produce _ _ _ _ h hbt
  · rw [if_neg hout]
    exact epochInvP_mono _ _ _ _ h hbt

lemma captureIteration_epochInvP (env : CaptureEnv) (s : CaptureState)
    (b : Nat) (h : EpochInvP s.videoStartPts s.ptsProduced b)
    (hbt : b ≤ env.now) :
    EpochInvP (captureIteration env s).videoStartPts
      (captureIteration env s).ptsProduced env.now := by
  unfold captureIteration
  by_cases h1 : s.framesInEncoder < ENCODER_OUTPUT_BUFFERS
  · rw [if_pos h1]
    by_cases h2 : env.camHasFrame = true
    · rw [if_pos h2]
      by_cases h3 : shouldSkipFrame s = true
      · rw [if_pos h3]
        exact epochInvP_mono _ _ _ _ h hbt
      · rw [if_neg h3]
        by_cases h4 : env.submitOk = true
        · rw [if_pos h4]
          exact drainStage_epochInvP env _ b h hbt
        · rw [if_neg h4]
          exact drainStage_epochInvP env _ b h hbt
    · rw [if_neg h2]
      exact drainStage_epochInvP env s b h hbt
  · rw [if_neg h1]
    exact drainStage_epochInvP env s b h hbt

lemma runCapture_epochInvP :
    ∀ (envs : List CaptureEnv) (s : CaptureState) (b : Nat),
      EpochInvP s.videoStartPts s.ptsProduced b →
      nowsChain b envs = true →
      nonDecreasing (runCapture envs s).ptsProduced = true ∧
      (∀ p, (runCapture envs s).ptsProduced.head? = some p → p = 0) := by
  intro envs
  induction envs with
  | nil =>
      intro s b h _
      exact ⟨h.1, h.2.1⟩
  | cons e es ih =>
      intro s b h hchain
      have hc : b ≤ e.now ∧ nowsChain e.now es = true := by
        simpa [nowsChain, Bool.and_eq_true, decide_eq_true_eq] using hchain
      have h1 := captureIteration_epochInvP e s b h hc.1
      have h2 := ih (captureIteration e s) e.now h1 hc.2
      simpa [runCapture] using h2

/-- C9: for any run of the capture loop from the state left by
    startStreaming (which resets video_start_pts_ to 0, giving each
    session a fresh epoch), if the timer readings are non-decreasing
    then the produced frame timestamps are non-decreasing and the
    first frame of the session has timestamp 0; the epoch register
    starts at 0, so the first encoder retrieval records the epoch. -/
theorem c9_timestamp_epoch :
    ∀ envs : List CaptureEnv, nowsChain 0 envs = true →
      nonDecreasing (runCapture envs streamStartState).ptsProduced = true ∧
      (∀ p, (runCapture envs streamStartState).ptsProduced.head? = some p →
        p = 0) ∧
      streamStartState.videoStartPts = 0 := by
  intro envs hchain
  have hinv : EpochInvP streamStartState.videoStartPts
      streamStartState.ptsProduced 0 := by
    unfold EpochInvP
    refine ⟨rfl, ?_, ?_, ?_⟩
    · intro p hp
      simp [streamStartState] at hp
    · intro _ p hp
      simp [streamStartState] at hp
    · intro h0
      exact absurd rfl h0
  obtain ⟨h1, h2⟩ := runCapture_epochInvP envs streamStartState 0 hinv hchain
  exact ⟨h1, h2, rfl⟩

/-- Witness for c9_timestamp_epoch. -/
theorem c9_witness :
    nowsChain 0 [busyEnv 5, busyEnv 7] = true ∧
    (nonDecreasing (runCapture [busyEnv 5, busyEnv 7]
        streamStartState).ptsProduced = true ∧
     (∀ p, (runCapture [busyEnv 5, busyEnv 7]
        streamStartState).ptsProduced.head? = some p → p = 0) ∧
     streamStartState.videoStartPts = 0) :=
  ⟨by decide, c9_timestamp_epoch [busyEnv 5, busyEnv 7] (by decide)⟩

end VideoStreamer
